import Mathlib

/-!
Verification development for the GraphQLClientCodegen pipeline
(`src/lexer.rs`, `src/parser.rs`, `src/schema.rs`, `src/codegen.rs`).

Text is modelled as `List Char` (Rust `&str` slices).  Characters are
compared through `Char.toNat` (`c.toNat = c.val.toNat`), mirroring the
literal characters and ranges of the Rust `match` arms; every numeric
code is annotated with the character it stands for.  In string
literals a left curly brace is written `\x7b` and a right one `\x7d`.

Rust panics (out-of-bounds indexing, `unwrap`, `panic!`, map `Index`
on a missing key, integer underflow) are modelled explicitly: by
`Option` (`none` = panic) in the schema/codegen sections and by a
dedicated `crash` outcome in the parser section.
-/

/-! ## Lexer (`src/lexer.rs`) -/

/-- Model of `TokenKind` of `lexer.rs` lines 6-28.  The Rust `Variable` constructor is
named `var` here because `variable` is a Lean keyword. -/
inductive TokenKind where
  | fragmentKeyword
  | queryKeyword
  | mutationKeyword
  | onKeyword
  | stringKeyword
  | intKeyword
  | boolKeyword
  | spread
  | openParen
  | closeParen
  | openSquare
  | closeSquare
  | exclamation
  | openBracket
  | closeBracket
  | colon
  | int (value : Int)
  | string (s : List Char)
  | identifier (s : List Char)
  | var (s : List Char)
deriving DecidableEq

/-- Model of `Token` of `lexer.rs` lines 30-34: a kind plus the lexer's `column` and
`line` counters at the moment `add_token` runs. -/
structure Token where
  kind : TokenKind
  column : Nat
  line : Nat
deriving DecidableEq

/-- Lexer error kinds (`lexer.rs` lines 42-45). -/
inductive LexErrorKind where
  | expecting (s : List Char)
  | unexpected (c : Char)
deriving DecidableEq

/-- A lexer error with its location (`lexer.rs` lines 36-50); the file path
field is dropped (it never varies inside one lex run). -/
structure LexError where
  column : Nat
  line : Nat
  kind : LexErrorKind
deriving DecidableEq

/-- Characters skipped by the lexer: space (32), comma (44), carriage
return (13), tab (9) (`lexer.rs` line 145). -/
def is_skip_char (c : Char) : Bool :=
  c.toNat = 32 || c.toNat = 44 || c.toNat = 13 || c.toNat = 9

/-- The Rust range pattern `'0'..='9'` (codes 48-57). -/
def is_digit_char (c : Char) : Bool :=
  48 ≤ c.toNat && c.toNat ≤ 57

/-- The Rust identifier-start pattern `'A'..='Z' | 'a'..='z' | '_'`
(codes 65-90, 97-122, 95) (`lexer.rs` line 205). -/
def is_ident_start (c : Char) : Bool :=
  (65 ≤ c.toNat && c.toNat ≤ 90) || (97 ≤ c.toNat && c.toNat ≤ 122) || c.toNat = 95

/-- The Rust identifier-continue pattern `'A'..='Z' | 'a'..='z' | '0'..='9' | '_'`
(`lexer.rs` lines 196, 208). -/
def is_ident_char (c : Char) : Bool :=
  (65 ≤ c.toNat && c.toNat ≤ 90) || (97 ≤ c.toNat && c.toNat ≤ 122)
    || (48 ≤ c.toNat && c.toNat ≤ 57) || c.toNat = 95

/-- Single-character punctuation tokens (`lexer.rs` lines 151-158):
`:` 58, `{` 123, `}` 125, `(` 40, `)` 41, `[` 91, `]` 93, `!` 33. -/
def punct_kind (c : Char) : Option TokenKind :=
  if c.toNat = 58 then some .colon
  else if c.toNat = 123 then some .openBracket
  else if c.toNat = 125 then some .closeBracket
  else if c.toNat = 40 then some .openParen
  else if c.toNat = 41 then some .closeParen
  else if c.toNat = 91 then some .openSquare
  else if c.toNat = 93 then some .closeSquare
  else if c.toNat = 33 then some .exclamation
  else none

/-- Keyword recognition over a finished identifier run
(`lexer.rs` lines 215-224). -/
def keyword_kind (s : List Char) : TokenKind :=
  if s = ("fragment").data then .fragmentKeyword
  else if s = ("query").data then .queryKeyword
  else if s = ("mutation").data then .mutationKeyword
  else if s = ("on").data then .onKeyword
  else if s = ("String").data then .stringKeyword
  else if s = ("Int").data then .intKeyword
  else if s = ("Bool").data then .boolKeyword
  else .identifier s

/-- Decimal value of a digit run, as parsed by `tok.tok().parse()`
(`lexer.rs` line 189; the `i32` overflow panic is not modelled — no claim
involves integers beyond `i32`). -/
def digits_val (cs : List Char) : Int :=
  cs.foldl (fun a c => 10 * a + ((c.toNat : Int) - 48)) 0

/-- The main lexer loop of `lex` (`lexer.rs` lines 142-236).  `line` and
`column` are the counters of `SrcIt`; `SrcIt::next` increments `column`
before yielding each character (line 101), which is mirrored by the
`let column := column + 1` at the head of each iteration, including the
two extra `next` calls of the spread branch (which increment `column`
even when they hit the end of input).  `fuel` decreases by one per loop
iteration while each iteration consumes at least one character, so with
the initial fuel `cs.length + 1` supplied by `lex` the `.ok []`
fallback is unreachable; it only makes the recursion structural. -/
def lex_go (fuel : Nat) (cs : List Char) (line column : Nat) : Except LexError (List Token) :=
  match fuel with
  | 0 => .ok []
  | fuel + 1 =>
  match cs with
  | [] => .ok []
  | c :: rest =>
    let column := column + 1
    if is_skip_char c then lex_go fuel rest line column
    else if c.toNat = 10 then lex_go fuel rest (line + 1) column
    else match punct_kind c with
    | some k => (lex_go fuel rest line column).map (fun ts => ⟨k, column, line⟩ :: ts)
    | none =>
      if c.toNat = 46 then
        -- spread branch (`lexer.rs` lines 162-175); 46 is the dot
        match rest with
        | [] => .error ⟨column + 1, line, .expecting ("...").data⟩
        | c1 :: r1 =>
          if c1.toNat = 46 then
            match r1 with
            | [] => .error ⟨column + 2, line, .expecting ("...").data⟩
            | c2 :: r2 =>
              if c2.toNat = 46 then
                (lex_go fuel r2 line (column + 2)).map
                  (fun ts => ⟨.spread, column + 2, line⟩ :: ts)
              else .error ⟨column + 2, line, .expecting ("...").data⟩
          else .error ⟨column + 1, line, .expecting ("...").data⟩
      else if is_digit_char c then
        let run := rest.takeWhile is_digit_char
        let column := column + run.length
        (lex_go fuel (rest.dropWhile is_digit_char) line column).map
          (fun ts => ⟨.int (digits_val (c :: run)), column, line⟩ :: ts)
      else if c.toNat = 36 then
        -- variable branch; 36 is the dollar sign
        let run := rest.takeWhile is_ident_char
        let column := column + run.length
        (lex_go fuel (rest.dropWhile is_ident_char) line column).map
          (fun ts => ⟨.var run, column, line⟩ :: ts)
      else if is_ident_start c then
        let run := rest.takeWhile is_ident_char
        let column := column + run.length
        (lex_go fuel (rest.dropWhile is_ident_char) line column).map
          (fun ts => ⟨keyword_kind (c :: run), column, line⟩ :: ts)
      else .error ⟨column, line, .unexpected c⟩

/-- Model of `lex` (`lexer.rs` line 127): counters start at `column = 0`, `line = 0`
(lines 133-138). -/
def lex (cs : List Char) : Except LexError (List Token) :=
  lex_go (cs.length + 1) cs 0 0

/-- Add `d` to the column of every token, and of the error, in a lexer
result (used to state that the column counter is a running offset). -/
def shift_result (d : Nat) : Except LexError (List Token) → Except LexError (List Token)
  | .ok ts => .ok (ts.map fun t => ⟨t.kind, t.column + d, t.line⟩)
  | .error e => .error ⟨e.column + d, e.line, e.kind⟩

theorem shift_result_comp (a b : Nat) (r : Except LexError (List Token)) :
    shift_result a (shift_result b r) = shift_result (b + a) r := by
  cases r with
  | ok ts =>
    simp only [shift_result, List.map_map, Except.ok.injEq]
    apply List.map_congr_left
    intro t _
    simp only [Function.comp_apply]
    congr 1
    omega
  | error e =>
    simp only [shift_result, Except.error.injEq]
    congr 1
    omega

theorem shift_result_map_cons (d : Nat) (t : Token) (r : Except LexError (List Token)) :
    shift_result d (r.map (fun ts => t :: ts)) =
      (shift_result d r).map (fun ts => (⟨t.kind, t.column + d, t.line⟩ : Token) :: ts) := by
  cases r <;> simp [shift_result, Except.map]

theorem lex_go_shift (d : Nat) : ∀ (fuel : Nat) (cs : List Char) (line col : Nat),
    lex_go fuel cs line (col + d) = shift_result d (lex_go fuel cs line col) := by
  intro fuel
  induction fuel with
  | zero => intro cs line col; simp [lex_go, shift_result]
  | succ fuel ih =>
    intro cs line col
    match cs with
    | [] => simp [lex_go, shift_result]
    | c :: rest =>
      simp only [lex_go]
      by_cases h1 : is_skip_char c = true
      · simp only [if_pos h1]
        have e : col + d + 1 = col + 1 + d := by omega
        rw [e, ih]
      · simp only [if_neg h1]
        by_cases h2 : c.toNat = 10
        · simp only [if_pos h2]
          have e : col + d + 1 = col + 1 + d := by omega
          rw [e, ih]
        · simp only [if_neg h2]
          cases hp : punct_kind c with
          | some k =>
            simp only [hp, shift_result_map_cons]
            have e : col + d + 1 = col + 1 + d := by omega
            rw [e, ih]
          | none =>
            simp only [hp]
            by_cases h3 : c.toNat = 46
            · simp only [if_pos h3]
              match rest with
              | [] =>
                simp only [shift_result, Except.error.injEq, LexError.mk.injEq, and_true]
                omega
              | c1 :: r1 =>
                by_cases h4 : c1.toNat = 46
                · simp only [if_pos h4]
                  match r1 with
                  | [] =>
                    simp only [shift_result, Except.error.injEq, LexError.mk.injEq, and_true]
                    omega
                  | c2 :: r2 =>
                    by_cases h5 : c2.toNat = 46
                    · simp only [if_pos h5, shift_result_map_cons]
                      have e : col + d + 1 + 2 = col + 1 + 2 + d := by omega
                      rw [e, ih]
                    · simp only [if_neg h5, shift_result, Except.error.injEq,
                        LexError.mk.injEq, and_true]
                      omega
                · simp only [if_neg h4, shift_result, Except.error.injEq, LexError.mk.injEq,
                    and_true]
                  omega
            · simp only [if_neg h3]
              by_cases h6 : is_digit_char c = true
              · simp only [if_pos h6, shift_result_map_cons]
                have e : col + d + 1 + (rest.takeWhile is_digit_char).length
                    = col + 1 + (rest.takeWhile is_digit_char).length + d := by omega
                rw [e, ih]
              · simp only [if_neg h6]
                by_cases h7 : c.toNat = 36
                · simp only [if_pos h7, shift_result_map_cons]
                  have e : col + d + 1 + (rest.takeWhile is_ident_char).length
                      = col + 1 + (rest.takeWhile is_ident_char).length + d := by omega
                  rw [e, ih]
                · simp only [if_neg h7]
                  by_cases h8 : is_ident_start c = true
                  · simp only [if_pos h8, shift_result_map_cons]
                    have e : col + d + 1 + (rest.takeWhile is_ident_char).length
                        = col + 1 + (rest.takeWhile is_ident_char).length + d := by omega
                    rw [e, ih]
                  · simp only [if_neg h8, shift_result, Except.error.injEq,
                      LexError.mk.injEq, and_true]
                    omega

/-- Claim C10: the lexer's `column` counter is incremented once per consumed
character and is never reset when a newline is consumed: (1) starting the
loop at column `col + d` yields exactly the result of starting it at `col`
with every recorded column shifted by `d` — no branch, in particular not the
newline branch, forgets the running offset; (2) consuming a newline only
increments the line and the column; (3) concretely, in `"a\nb"` the token on
line 1 carries column 3, the count of all characters consumed since the start
of the file, not its offset 0 within its own line. -/
theorem c10_column_is_running_count :
    (∀ d fuel cs line col,
      lex_go fuel cs line (col + d) = shift_result d (lex_go fuel cs line col))
    ∧ (∀ fuel rest line col,
      lex_go (fuel + 1) ('\n' :: rest) line col = lex_go fuel rest (line + 1) (col + 1))
    ∧ lex (("a\nb").data) =
        .ok [⟨.identifier (("a").data), 1, 0⟩, ⟨.identifier (("b").data), 3, 1⟩] := by
  refine ⟨fun d fuel cs line col => lex_go_shift d fuel cs line col, ?_, by rfl⟩
  intro fuel rest line col
  show lex_go (fuel + 1) ('\n' :: rest) line col = _
  simp only [lex_go]
  rw [if_neg (by decide), if_pos (by decide)]

/-- Claim C3 counterexample: the very first token of the one-character file
`"a"` is recorded with line 0 (not the claimed 1-based line 1) and with
column 1 (not the claimed 0-based column 0). -/
theorem c3_counterexample :
    lex ['a'] = .ok [⟨.identifier ['a'], 1, 0⟩] ∧ (0 : Nat) ≠ 1 ∧ (1 : Nat) ≠ 0 :=
  ⟨by rfl, by decide, by decide⟩

/-- Claim C3 (amended): token line numbers are 0-based and the recorded
column is the running count of characters consumed since the start of the
file at the point the token is recorded: for any identifier-start character
`c`, the sole token of the file `[c]` carries line 0 and column 1. -/
theorem c3_amended (c : Char) (h : is_ident_start c = true) :
    lex [c] = .ok [⟨.identifier [c], 1, 0⟩] := by
  have hn : ((65 ≤ c.toNat ∧ c.toNat ≤ 90) ∨ (97 ≤ c.toNat ∧ c.toNat ≤ 122))
      ∨ c.toNat = 95 := by
    simpa [is_ident_start, Bool.or_eq_true, Bool.and_eq_true, decide_eq_true_eq] using h
  have hskip : ¬ (is_skip_char c = true) := by
    simp only [is_skip_char, Bool.or_eq_true, decide_eq_true_eq]
    omega
  have h10 : ¬ (c.toNat = 10) := by omega
  have hpunct : punct_kind c = none := by
    unfold punct_kind
    repeat rw [if_neg (by omega)]
  have hdot : ¬ (c.toNat = 46) := by omega
  have hdig : ¬ (is_digit_char c = true) := by
    simp only [is_digit_char, Bool.and_eq_true, decide_eq_true_eq, not_and]
    omega
  have hdollar : ¬ (c.toNat = 36) := by omega
  have hkw : keyword_kind [c] = .identifier [c] := by
    unfold keyword_kind
    repeat rw [if_neg (by simp)]
  show lex_go 2 [c] 0 0 = _
  simp only [lex_go]
  rw [if_neg hskip, if_neg h10]
  simp only [hpunct]
  rw [if_neg hdot, if_neg hdig, if_neg hdollar, if_pos h]
  simp only [List.takeWhile, List.dropWhile, List.length_nil, hkw, lex_go, Except.map]

/-- Witness for C3 (amended) at the concrete character `a`. -/
theorem c3_amended_witness : lex ['a'] = .ok [⟨.identifier ['a'], 1, 0⟩] :=
  c3_amended 'a' (by decide)

/-- Claim C6 counterexample: on the input `".x"` the lexer does fail with
`Expecting("...")`, but the error is recorded at column 2, the running
position after consuming the diverging character `x` — not at the dot's
position, which is column 1 under the lexer's own convention (the count
after consuming the dot) and column 0 under a 0-based convention. -/
theorem c6_counterexample :
    lex ['.', 'x'] = .error ⟨2, 0, .expecting ("...").data⟩
      ∧ (2 : Nat) ≠ 1 ∧ (2 : Nat) ≠ 0 :=
  ⟨by rfl, by decide, by decide⟩

/-- Claim C6 (amended): a `.` not followed by two more dots makes the lexer
fail with `Expecting("...")` reported at the point of divergence — the
running column after consuming the offending (or missing) character, one
or two past the dot — and an error result carries no tokens at all.  The
three cases: a non-dot right after the dot, a lone dot at end of input,
and a non-dot after two dots. -/
theorem c6_amended (c : Char) (r : List Char) (line col fuel : Nat)
    (h : ¬ (c.toNat = 46)) :
    lex_go (fuel + 1) ('.' :: c :: r) line col
        = .error ⟨col + 2, line, .expecting ("...").data⟩
    ∧ lex_go (fuel + 1) ['.'] line col
        = .error ⟨col + 2, line, .expecting ("...").data⟩
    ∧ lex_go (fuel + 1) ('.' :: '.' :: c :: r) line col
        = .error ⟨col + 3, line, .expecting ("...").data⟩ := by
  have hskip : ¬ (is_skip_char '.' = true) := by decide
  have h10 : ¬ (('.').toNat = 10) := by decide
  have hpunct : punct_kind '.' = none := by decide
  have hdot : ('.').toNat = 46 := by decide
  refine ⟨?_, ?_, ?_⟩
  · simp only [lex_go]
    rw [if_neg hskip, if_neg h10]
    simp only [hpunct]
    rw [if_pos hdot, if_neg h]
  · simp only [lex_go]
    rw [if_neg hskip, if_neg h10]
    simp only [hpunct]
    rw [if_pos hdot]
  · simp only [lex_go]
    rw [if_neg hskip, if_neg h10]
    simp only [hpunct]
    rw [if_pos hdot, if_pos hdot, if_neg h]

/-- Witness for C6 (amended) at the concrete input `".x"`. -/
theorem c6_amended_witness :
    lex_go 1 ['.', 'x'] 0 0 = .error ⟨2, 0, .expecting ("...").data⟩ :=
  (c6_amended 'x' [] 0 0 0 (by decide)).1

/-! ## Parser (`src/parser.rs`) -/

/-- Model of `parser::Type` (`parser.rs` lines 11-19); named `Ty` because `Type` is a
Lean keyword. -/
inductive Ty where
  | nonNull (t : Ty)
  | int
  | float
  | bool
  | string
  | input (name : List Char)
  | array (t : Ty)
deriving DecidableEq

/-- Model of `parser::Value` (`parser.rs` lines 4-9). -/
inductive Val where
  | int (v : Int)
  | string (s : List Char)
  | bool (b : Bool)
  | var (name : List Char)
deriving DecidableEq

/-- Model of `parser::Argument` (`parser.rs` lines 21-24). -/
structure Arg where
  name : List Char
  value : Val
deriving DecidableEq

/-- Model of `parser::ArgumentDef` (`parser.rs` lines 38-41). -/
structure ArgDef where
  name : List Char
  kind : Ty
deriving DecidableEq

/-- Model of `parser::Field` (`parser.rs` lines 26-36, 62-65): the `PlainField` and
`InlineFragment` payload structs are inlined as constructor fields.  Named
`PField` because `Field` is taken by Mathlib's algebraic class. -/
inductive PField where
  | plainField (name : List Char) (args : List Arg) (fields : List PField)
  | inlineFragment (onTy : Ty) (fields : List PField)
  | fragment (name : List Char)

/-- Model of `parser::Query` (`parser.rs` lines 43-47). -/
structure QueryDef where
  name : List Char
  args : List ArgDef
  fields : List PField

/-- Model of `parser::Mutation` (`parser.rs` lines 49-53). -/
structure MutationDef where
  name : List Char
  args : List ArgDef
  fields : List PField

/-- Model of `parser::Fragment` (`parser.rs` lines 55-60); `on` is kept as `onTy`. -/
structure FragmentDef where
  name : List Char
  args : List ArgDef
  onTy : Ty
  fields : List PField

/-- Model of `parser::GraphQL` (`parser.rs` lines 78-82). -/
structure GraphQL where
  fragments : List FragmentDef
  queries : List QueryDef
  mutations : List MutationDef

/-- Parser error kinds (`parser.rs` lines 84-87). -/
inductive PErrorKind where
  | syntaxError
  | expecting (s : List Char)
deriving DecidableEq

/-- Model of `parser::Error` (`parser.rs` lines 90-94). -/
structure PError where
  column : Nat
  line : Nat
  kind : PErrorKind
deriving DecidableEq

/-- Parser state (`parser.rs` lines 106-110): the token vector and the
cursor `i`; the partially built module is threaded separately. -/
structure PState where
  toks : List Token
  i : Nat
deriving DecidableEq

/-- Outcome of a parser step.  `crash` models a Rust panic (the unchecked
`self.tokens[i]` indexing in `next`/`current`, lines 113-121, and the
`tokens.len() - 1` underflow in `error`, line 124).  `fuelOut` is the fuel
fallback: fuel only makes the recursion structural and all concrete runs
below use enough fuel never to reach it. -/
inductive PResult (α : Type) where
  | ok (a : α)
  | err (e : PError)
  | crash
  | fuelOut

/-- Peek helper used only to state theorems: the token under the cursor,
if any. -/
def current_tok (s : PState) : Option Token :=
  if h : s.i < s.toks.length then some s.toks[s.i] else none

/-- Model of `Parser::next` (`parser.rs` lines 113-117): returns `tokens[i]` and
advances; the indexing panics when `i` is past the end. -/
def p_next (s : PState) : PResult (Token × PState) :=
  if h : s.i < s.toks.length then .ok (s.toks[s.i], ⟨s.toks, s.i + 1⟩) else .crash

/-- Model of `Parser::current` (`parser.rs` lines 119-121): returns `tokens[i]`
without advancing; panics past the end. -/
def p_current (s : PState) : PResult Token :=
  if h : s.i < s.toks.length then .ok s.toks[s.i] else .crash

/-- Model of `Parser::error` (`parser.rs` lines 123-131): builds the error carrying
the location of token `min(i, len - 1)`; with an empty token vector
`len - 1` underflows (a panic, here `none`).  The `getD` default is
unreachable because `min i (len - 1) < len` whenever `len ≠ 0`. -/
def mk_error (s : PState) (k : PErrorKind) : Option PError :=
  if s.toks.length = 0 then none
  else
    let t := s.toks.getD (min s.i (s.toks.length - 1)) ⟨.colon, 0, 0⟩
    some ⟨t.column, t.line, k⟩

/-- Model of `Err(self.error(kind))` as a parser outcome. -/
def error_at (s : PState) (k : PErrorKind) : PResult α :=
  match mk_error s k with
  | some e => .err e
  | none => .crash

/-- Model of `Parser::expect` (`parser.rs` lines 133-139).  On success it returns the
advanced state; on a kind mismatch the error also carries the advanced state
(the Rust method has already mutated `self.i`), which matters at the two
call sites that discard the returned `Result`. -/
inductive ExpectOut where
  | ok (s : PState)
  | err (e : PError) (s : PState)
  | crash

def expect_tok (s : PState) (k : TokenKind) (desc : List Char) : ExpectOut :=
  match p_next s with
  | .ok (t, s') =>
    if t.kind = k then .ok s'
    else
      match mk_error s' (.expecting desc) with
      | some e => .err e s'
      | none => .crash
  | _ => .crash

/-- Model of `expect` at a call site that uses `?` (propagates the error). -/
def expect_prop (s : PState) (k : TokenKind) (desc : List Char) : PResult PState :=
  match expect_tok s k desc with
  | .ok s' => .ok s'
  | .err e _ => .err e
  | .crash => .crash

/-- Model of `expect` at the two call sites that DISCARD its `Result`
(`parse_fields`, parser.rs line 194, and `parse_fragment`, line 287):
the token is still consumed and a mismatch error is silently dropped. -/
def expect_discard (s : PState) (k : TokenKind) (desc : List Char) : PResult PState :=
  match expect_tok s k desc with
  | .ok s' => .ok s'
  | .err _ s' => .ok s'
  | .crash => .crash

/-- Model of `Parser::parse_name` (`parser.rs` lines 141-146). -/
def parse_name (s : PState) : PResult (List Char × PState) :=
  match p_next s with
  | .ok (t, s') =>
    match t.kind with
    | .identifier nm => .ok (nm, s')
    | _ => error_at s' (.expecting ("identifier").data)
  | _ => .crash

/-- Model of `Parser::parse_value` (`parser.rs` lines 212-219). -/
def parse_value (s : PState) : PResult (Val × PState) :=
  match p_next s with
  | .ok (t, s') =>
    match t.kind with
    | .var nm => .ok (.var nm, s')
    | .int v => .ok (.int v, s')
    | .string v => .ok (.string v, s')
    | _ => error_at s' (.expecting ("Value").data)
  | _ => .crash

/-- Sequencing of parser outcomes (the Rust `?` operator). -/
def pbind (r : PResult α) (f : α → PResult β) : PResult β :=
  match r with
  | .ok a => f a
  | .err e => .err e
  | .crash => .crash
  | .fuelOut => .fuelOut

/-- One item produced by `parse_toplevel`; the Rust methods push directly
into `self.module`, modelled by `push_item` below. -/
inductive TopItem where
  | q (d : QueryDef)
  | m (d : MutationDef)
  | fr (d : FragmentDef)

/-- Model of `Vec::push` into the matching list of the module
(`parser.rs` lines 274, 282, 293). -/
def push_item (g : GraphQL) : TopItem → GraphQL
  | .q d => ⟨g.fragments, g.queries ++ [d], g.mutations⟩
  | .m d => ⟨g.fragments, g.queries, g.mutations ++ [d]⟩
  | .fr d => ⟨g.fragments ++ [d], g.queries, g.mutations⟩

mutual

/-- Model of `Parser::parse_type` (`parser.rs` lines 148-168).  Note that the
trailing `!` check calls `current()`, which panics at end of input. -/
def parse_type (fuel : Nat) (s : PState) : PResult (Ty × PState) :=
  match fuel with
  | 0 => .fuelOut
  | fuel + 1 =>
    pbind
      (match p_next s with
       | .ok (t, s') =>
         match t.kind with
         | .identifier nm => .ok (Ty.input nm, s')
         | .stringKeyword => .ok (Ty.string, s')
         | .intKeyword => .ok (Ty.int, s')
         | .boolKeyword => .ok (Ty.bool, s')
         | .openSquare =>
           pbind (parse_type fuel s') (fun r =>
             pbind (expect_prop r.2 .closeSquare ("]").data) (fun s3 =>
               .ok (Ty.array r.1, s3)))
         | _ => error_at s' (.expecting ("type").data)
       | .err e => .err e
       | .crash => .crash
       | .fuelOut => .fuelOut)
      (fun r =>
        match p_current r.2 with
        | .ok t =>
          if t.kind = .exclamation then
            match p_next r.2 with
            | .ok p => .ok (Ty.nonNull r.1, p.2)
            | .err e => .err e
            | .crash => .crash
            | .fuelOut => .fuelOut
          else .ok r
        | .err e => .err e
        | .crash => .crash
        | .fuelOut => .fuelOut)

/-- Model of `Parser::parse_spread` (`parser.rs` lines 170-181). -/
def parse_spread (fuel : Nat) (s : PState) : PResult (PField × PState) :=
  match fuel with
  | 0 => .fuelOut
  | fuel + 1 =>
    match p_next s with
    | .ok (t, s') =>
      match t.kind with
      | .identifier nm => .ok (.fragment nm, s')
      | .onKeyword =>
        pbind (parse_type fuel s') (fun r =>
          pbind (parse_fields fuel r.2) (fun fr =>
            .ok (.inlineFragment r.1 fr.1, fr.2)))
      | _ => error_at s' (.expecting ("inline fragment or fragment").data)
    | .err e => .err e
    | .crash => .crash
    | .fuelOut => .fuelOut

/-- Model of `Parser::parse_optional_fields` (`parser.rs` lines 183-189): the
single-token-lookahead dispatch after a plain field's arguments. -/
def parse_optional_fields (fuel : Nat) (s : PState) : PResult (List PField × PState) :=
  match fuel with
  | 0 => .fuelOut
  | fuel + 1 =>
    match p_current s with
    | .ok t =>
      match t.kind with
      | .identifier _ => .ok ([], s)
      | .closeBracket => .ok ([], s)
      | .spread => .ok ([], s)
      | .openBracket => parse_fields fuel s
      | _ => error_at s (.expecting ("\x7b or \n").data)
    | .err e => .err e
    | .crash => .crash
    | .fuelOut => .fuelOut

/-- Model of `Parser::parse_fields` (`parser.rs` lines 191-202).  The opening-brace
`expect` has its `Result` DISCARDED in the source (no `?` on line 194), so
a mismatched token is consumed and parsing continues. -/
def parse_fields (fuel : Nat) (s : PState) : PResult (List PField × PState) :=
  match fuel with
  | 0 => .fuelOut
  | fuel + 1 =>
    match expect_discard s .openBracket ("\x7b").data with
    | .ok s1 => parse_fields_loop fuel s1
    | .err e => .err e
    | .crash => .crash
    | .fuelOut => .fuelOut

/-- The `while current != CloseBracket` loop of `parse_fields`
(`parser.rs` lines 196-199), including the `next()` that consumes the
closing brace. -/
def parse_fields_loop (fuel : Nat) (s : PState) : PResult (List PField × PState) :=
  match fuel with
  | 0 => .fuelOut
  | fuel + 1 =>
    match p_current s with
    | .ok t =>
      if t.kind = .closeBracket then
        match p_next s with
        | .ok p => .ok ([], p.2)
        | .err e => .err e
        | .crash => .crash
        | .fuelOut => .fuelOut
      else
        pbind (parse_field fuel s) (fun f =>
          pbind (parse_fields_loop fuel f.2) (fun r =>
            .ok (f.1 :: r.1, r.2)))
    | .err e => .err e
    | .crash => .crash
    | .fuelOut => .fuelOut

/-- Model of `Parser::parse_field` (`parser.rs` lines 204-210). -/
def parse_field (fuel : Nat) (s : PState) : PResult (PField × PState) :=
  match fuel with
  | 0 => .fuelOut
  | fuel + 1 =>
    match p_next s with
    | .ok (t, s') =>
      match t.kind with
      | .identifier nm => parse_plain_field fuel nm s'
      | .spread => parse_spread fuel s'
      | _ => error_at s' (.expecting ("field or spread").data)
    | .err e => .err e
    | .crash => .crash
    | .fuelOut => .fuelOut

/-- Model of `Parser::parse_plain_field` (`parser.rs` lines 250-255): arguments
first, then the optional-selection lookahead. -/
def parse_plain_field (fuel : Nat) (nm : List Char) (s : PState) :
    PResult (PField × PState) :=
  match fuel with
  | 0 => .fuelOut
  | fuel + 1 =>
    pbind (parse_arguments fuel s) (fun a =>
      pbind (parse_optional_fields fuel a.2) (fun f =>
        .ok (.plainField nm a.1 f.1, f.2)))

/-- Model of `Parser::parse_named_list` with `variable = false` composed with
`parse_arguments` (`parser.rs` lines 222-248 and 257-261). -/
def parse_arguments (fuel : Nat) (s : PState) : PResult (List Arg × PState) :=
  match fuel with
  | 0 => .fuelOut
  | fuel + 1 =>
    match p_current s with
    | .ok t =>
      match t.kind with
      | .openBracket => .ok ([], s)
      | .identifier _ => .ok ([], s)
      | .spread => .ok ([], s)
      | .closeBracket => .ok ([], s)
      | .openParen =>
        match p_next s with
        | .ok p => parse_arguments_loop fuel p.2
        | .err e => .err e
        | .crash => .crash
        | .fuelOut => .fuelOut
      | _ => error_at s (.expecting ("\x7b or (").data)
    | .err e => .err e
    | .crash => .crash
    | .fuelOut => .fuelOut

/-- The `loop` of `parse_named_list` with `variable = false`
(`parser.rs` lines 231-242): a `Variable` token falls through its failed
guard to the wildcard error arm. -/
def parse_arguments_loop (fuel : Nat) (s : PState) : PResult (List Arg × PState) :=
  match fuel with
  | 0 => .fuelOut
  | fuel + 1 =>
    match p_next s with
    | .ok (t, s1) =>
      match t.kind with
      | .identifier nm =>
        pbind (expect_prop s1 .colon (":").data) (fun s2 =>
          pbind (parse_value s2) (fun v =>
            pbind (parse_arguments_loop fuel v.2) (fun r =>
              .ok (⟨nm, v.1⟩ :: r.1, r.2))))
      | .closeParen => .ok ([], s1)
      | _ => error_at s1 (.expecting ("identifier").data)
    | .err e => .err e
    | .crash => .crash
    | .fuelOut => .fuelOut

/-- Model of `Parser::parse_named_list` with `variable = true` composed with
`parse_arguments_def` (`parser.rs` lines 222-248 and 263-267): here the
`Identifier | Spread | CloseBracket` empty-list arm is guarded away, so
only `OpenBracket` and `OpenParen` avoid the error. -/
def parse_arguments_def (fuel : Nat) (s : PState) : PResult (List ArgDef × PState) :=
  match fuel with
  | 0 => .fuelOut
  | fuel + 1 =>
    match p_current s with
    | .ok t =>
      match t.kind with
      | .openBracket => .ok ([], s)
      | .openParen =>
        match p_next s with
        | .ok p => parse_arguments_def_loop fuel p.2
        | .err e => .err e
        | .crash => .crash
        | .fuelOut => .fuelOut
      | _ => error_at s (.expecting ("\x7b or (").data)
    | .err e => .err e
    | .crash => .crash
    | .fuelOut => .fuelOut

/-- The `loop` of `parse_named_list` with `variable = true`
(`parser.rs` lines 231-242). -/
def parse_arguments_def_loop (fuel : Nat) (s : PState) : PResult (List ArgDef × PState) :=
  match fuel with
  | 0 => .fuelOut
  | fuel + 1 =>
    match p_next s with
    | .ok (t, s1) =>
      match t.kind with
      | .var nm =>
        pbind (expect_prop s1 .colon (":").data) (fun s2 =>
          pbind (parse_type fuel s2) (fun ty =>
            pbind (parse_arguments_def_loop fuel ty.2) (fun r =>
              .ok (⟨nm, ty.1⟩ :: r.1, r.2))))
      | .closeParen => .ok ([], s1)
      | _ => error_at s1 (.expecting ("identifier").data)
    | .err e => .err e
    | .crash => .crash
    | .fuelOut => .fuelOut

/-- Model of `Parser::parse_query` (`parser.rs` lines 269-275). -/
def parse_query (fuel : Nat) (s : PState) : PResult (QueryDef × PState) :=
  match fuel with
  | 0 => .fuelOut
  | fuel + 1 =>
    pbind (parse_name s) (fun n =>
      pbind (parse_arguments_def fuel n.2) (fun a =>
        pbind (parse_fields fuel a.2) (fun f =>
          .ok (⟨n.1, a.1, f.1⟩, f.2))))

/-- Model of `Parser::parse_mutation` (`parser.rs` lines 277-283): unlike a query,
the body uses `parse_optional_fields`. -/
def parse_mutation (fuel : Nat) (s : PState) : PResult (MutationDef × PState) :=
  match fuel with
  | 0 => .fuelOut
  | fuel + 1 =>
    pbind (parse_name s) (fun n =>
      pbind (parse_arguments_def fuel n.2) (fun a =>
        pbind (parse_optional_fields fuel a.2) (fun f =>
          .ok (⟨n.1, a.1, f.1⟩, f.2))))

/-- Model of `Parser::parse_fragment` (`parser.rs` lines 285-294).  The `on` keyword
`expect` has its `Result` DISCARDED in the source (line 287). -/
def parse_fragment (fuel : Nat) (s : PState) : PResult (FragmentDef × PState) :=
  match fuel with
  | 0 => .fuelOut
  | fuel + 1 =>
    pbind (parse_name s) (fun n =>
      pbind (expect_discard n.2 .onKeyword ("Expecting on $type").data) (fun s1 =>
        pbind (parse_type fuel s1) (fun o =>
          pbind (parse_arguments_def fuel o.2) (fun a =>
            pbind (parse_fields fuel a.2) (fun f =>
              .ok (⟨n.1, a.1, o.1, f.1⟩, f.2))))))

/-- Model of `Parser::parse_toplevel` (`parser.rs` lines 296-303). -/
def parse_toplevel (fuel : Nat) (s : PState) : PResult (TopItem × PState) :=
  match fuel with
  | 0 => .fuelOut
  | fuel + 1 =>
    match p_next s with
    | .ok (t, s') =>
      match t.kind with
      | .mutationKeyword => pbind (parse_mutation fuel s') (fun r => .ok (.m r.1, r.2))
      | .queryKeyword => pbind (parse_query fuel s') (fun r => .ok (.q r.1, r.2))
      | .fragmentKeyword => pbind (parse_fragment fuel s') (fun r => .ok (.fr r.1, r.2))
      | _ =>
        error_at s'
          (.expecting ("Top level consists only of query,mutation or fragment").data)
    | .err e => .err e
    | .crash => .crash
    | .fuelOut => .fuelOut

/-- The `while parser.i < parser.tokens.len()` loop of `parse`
(`parser.rs` lines 318-320). -/
def parse_loop (fuel : Nat) (s : PState) (acc : GraphQL) : PResult GraphQL :=
  match fuel with
  | 0 => .fuelOut
  | fuel + 1 =>
    if s.i < s.toks.length then
      pbind (parse_toplevel fuel s) (fun r => parse_loop fuel r.2 (push_item acc r.1))
    else .ok acc

end

/-- Model of `parse` (`parser.rs` lines 306-323).  The fuel `16 * (len + 1)` bounds
the recursion depth: every constant-depth chain of nested calls consumes at
least one token, so the fallback `fuelOut` is unreachable for real runs; all
concrete evaluations below stay far below the bound. -/
def parse (toks : List Token) : PResult GraphQL :=
  parse_loop (16 * (toks.length + 1)) ⟨toks, 0⟩ ⟨[], [], []⟩

theorem p_current_of_current_tok {s : PState} {t : Token}
    (h : current_tok s = some t) : p_current s = .ok t := by
  unfold current_tok at h
  unfold p_current
  by_cases hlt : s.i < s.toks.length
  · rw [dif_pos hlt] at h
    rw [dif_pos hlt]
    exact congrArg PResult.ok (Option.some.inj h)
  · rw [dif_neg hlt] at h
    cases h

/-- Claim C2: evaluating the pipeline on the truncated document `"query"`.
The lexer succeeds with the single `query` keyword token, and `parse` then
CRASHES (Rust: index-out-of-bounds panic in `Parser::next`, `parser.rs`
line 116) instead of returning an `Expecting`/`SyntaxError` value: after
consuming the keyword, `parse_name` reads `tokens[1]` of a length-1 vector. -/
theorem c2_truncated_input_crashes :
    lex (("query").data) = .ok [⟨.queryKeyword, 5, 0⟩]
      ∧ parse [⟨.queryKeyword, 5, 0⟩] = .crash :=
  ⟨rfl, rfl⟩

/-- Claim C5: after a plain field's (possibly empty) argument list the
parser decides the field's shape from the single current token: `{` hands
over to `parse_fields`, an identifier / `}` / `...` yields an empty nested
selection with no token consumed, and every other kind is a parse error;
moreover `parse_plain_field` is exactly arguments-then-this-lookahead. -/
theorem c5_optional_selection_lookahead (fuel : Nat) (s : PState) (t : Token)
    (h : current_tok s = some t) :
    (t.kind = .openBracket → parse_optional_fields (fuel + 1) s = parse_fields fuel s)
    ∧ ((∃ nm, t.kind = .identifier nm) ∨ t.kind = .closeBracket ∨ t.kind = .spread →
        parse_optional_fields (fuel + 1) s = .ok ([], s))
    ∧ ((∀ nm, t.kind ≠ .identifier nm) → t.kind ≠ .openBracket →
        t.kind ≠ .closeBracket → t.kind ≠ .spread →
        parse_optional_fields (fuel + 1) s = error_at s (.expecting ("\x7b or \n").data))
    ∧ (∀ nm, parse_plain_field (fuel + 1) nm s =
        pbind (parse_arguments fuel s) (fun a =>
          pbind (parse_optional_fields fuel a.2) (fun f =>
            .ok (.plainField nm a.1 f.1, f.2)))) := by
  have hc : p_current s = .ok t := p_current_of_current_tok h
  refine ⟨?_, ?_, ?_, ?_⟩
  · intro hk
    simp only [parse_optional_fields, hc, hk]
  · intro hk
    rcases hk with ⟨nm, hk⟩ | hk | hk <;> simp only [parse_optional_fields, hc, hk]
  · intro h1 h2 h3 h4
    cases htk : t.kind <;>
      first
        | exact absurd htk (h1 _)
        | exact absurd htk h2
        | exact absurd htk h3
        | exact absurd htk h4
        | simp only [parse_optional_fields, hc, htk]
  · intro nm
    rfl

/-- Witness for C5 at a concrete state whose current token is `...`: no
nested selection, no token consumed. -/
theorem c5_witness :
    parse_optional_fields 4 ⟨[⟨.spread, 1, 0⟩], 0⟩ = .ok ([], ⟨[⟨.spread, 1, 0⟩], 0⟩) :=
  (c5_optional_selection_lookahead 3 ⟨[⟨.spread, 1, 0⟩], 0⟩ ⟨.spread, 1, 0⟩ rfl).2.1
    (Or.inr (Or.inr rfl))

/-! ## Schema model (`src/schema.rs`) -/

/-- Model of `schema::NamedTypeKind` (`schema.rs` lines 9-12). -/
inductive NamedTypeKind where
  | scalar
  | object
  | enum
  | inputObject
  | interface
deriving DecidableEq

/-- Model of `schema::Argument` (`schema.rs` lines 14-17). -/
structure SchemaArgument where
  name : List Char
  of_type : Ty
deriving DecidableEq

/-- Model of `schema::Field` (`schema.rs` lines 19-23); named `SchemaField` to avoid
clashing with the parser's field type. -/
structure SchemaField where
  name : List Char
  args : List SchemaArgument
  of_type : Ty
deriving DecidableEq

/-- An association list standing for a Rust `HashMap`: lookups are by key,
and `map_insert` overwrites an existing binding like `HashMap::insert`.
Only key-based access is modelled this way; the one place the source
ITERATES a hash container (`gen_dependent_fragments`) is modelled
separately with an explicit enumeration order. -/
def map_get (m : List (List Char × α)) (k : List Char) : Option α :=
  (m.find? (fun p => p.1 == k)).map (fun p => p.2)

def map_insert (m : List (List Char × α)) (k : List Char) (v : α) :
    List (List Char × α) :=
  (m.eraseP (fun p => p.1 == k)) ++ [(k, v)]

/-- Model of `schema::NamedType` (`schema.rs` lines 25-29). -/
structure NamedType where
  name : List Char
  kind : NamedTypeKind
  fields : List (List Char × SchemaField)
deriving DecidableEq

/-- Model of `schema::Schema` (`schema.rs` lines 31-35), fields in source order. -/
structure Schema where
  mutation_type : List Char
  query_type : List Char
  types : List (List Char × NamedType)
deriving DecidableEq

/-- Model of `Schema::get` (`schema.rs` lines 244-246). -/
def Schema.get (s : Schema) (name : List Char) : Option NamedType :=
  map_get s.types name

/-- Model of `Schema::get_named` (`schema.rs` lines 230-237): `none` models both the
`unwrap` panic on a missing type name and the `panic!` on a scalar-only
type. -/
def Schema.get_named (s : Schema) : Ty → Option NamedType
  | .input name => s.get name
  | .array elem => s.get_named elem
  | .nonNull elem => s.get_named elem
  | _ => none

/-- Model of `Schema::get_type_of_field` (`schema.rs` lines 239-242): the
`fields[name]` map indexing panics (`none`) when the field is absent. -/
def Schema.get_type_of_field (s : Schema) (object_type : NamedType)
    (name : List Char) : Option NamedType :=
  match map_get object_type.fields name with
  | some f => s.get_named f.of_type
  | none => none

/-- Model of `Schema::query_root` (`schema.rs` lines 248-250). -/
def Schema.query_root (s : Schema) : Option NamedType :=
  map_get s.types s.query_type

/-- Model of `Schema::mutation_root` (`schema.rs` lines 252-254). -/
def Schema.mutation_root (s : Schema) : Option NamedType :=
  map_get s.types s.mutation_type

/-- A parsed `serde_json::Value`; `schema::from` receives the top-level
object already parsed (the `serde_json::from_str` step, which can only
fail with a JSON syntax error, is outside the model). -/
inductive Json where
  | null
  | jbool (b : Bool)
  | jnum (n : Int)
  | jstr (s : List Char)
  | jarr (xs : List Json)
  | jobj (m : List (List Char × Json))

/-- Model of `serde_json::Map` `Index` (`map[key]`): PANICS (`none`) when the key is
absent — unlike `Value`'s lenient indexing, which the source never uses. -/
def jmap_index (m : List (List Char × Json)) (k : List Char) : Option Json :=
  (m.find? (fun p => p.1 == k)).map (fun p => p.2)

/-- Model of `Value::as_object`. -/
def Json.as_object : Json → Option (List (List Char × Json))
  | .jobj m => some m
  | _ => none

/-- Model of `Value::as_str`. -/
def Json.as_str : Json → Option (List Char)
  | .jstr s => some s
  | _ => none

/-- Model of `Value::as_array`. -/
def Json.as_array : Json → Option (List Json)
  | .jarr xs => some xs
  | _ => none

/-- Model of `schema::type_from` (`schema.rs` lines 37-65).  `name` is fetched by map
indexing first (panics if the KEY is absent; its value may be `null`), then
`kind` is fetched and unwrapped as a string.  `fuel` only makes the
recursion through `ofType` structural; callers pass a bound that exceeds
any JSON nesting depth. -/
def type_from (fuel : Nat) (m : List (List Char × Json)) : Option Ty :=
  match fuel with
  | 0 => none
  | fuel + 1 =>
    match jmap_index m ("name").data with
    | none => none
    | some nameV =>
      match jmap_index m ("kind").data with
      | none => none
      | some kindV =>
        match kindV.as_str with
        | none => none
        | some kind =>
          if kind = ("SCALAR").data then
            match nameV.as_str with
            | none => none
            | some n =>
              if n = ("Int").data then some .int
              else if n = ("Float").data then some .float
              else if n = ("Bool").data then some .bool
              else if n = ("String").data then some .string
              else some (.input n)
          else if kind = ("NON_NULL").data then
            match jmap_index m ("ofType").data with
            | none => none
            | some o =>
              match o.as_object with
              | none => none
              | some om =>
                match type_from fuel om with
                | none => none
                | some t => some (.nonNull t)
          else if kind = ("LIST").data then
            match jmap_index m ("ofType").data with
            | none => none
            | some o =>
              match o.as_object with
              | none => none
              | some om =>
                match type_from fuel om with
                | none => none
                | some t => some (.array t)
          else if kind = ("ENUM").data then
            match nameV.as_str with
            | none => none
            | some n => some (.input n)
          else if kind = ("OBJECT").data ∨ kind = ("INTERFACE").data
              ∨ kind = ("INPUT_OBJECT").data then
            match nameV.as_str with
            | none => none
            | some n => some (.input n)
          else none

/-- The element loop of `map_array_object` (`schema.rs` lines 67-79)
specialised to `args_from`'s closure (lines 81-86). -/
def args_from_list (fuel : Nat) : List Json → Option (List SchemaArgument)
  | [] => some []
  | v :: rest =>
    match v.as_object with
    | none => none
    | some obj =>
      match jmap_index obj ("name").data with
      | none => none
      | some nameV =>
        match nameV.as_str with
        | none => none
        | some nm =>
          match jmap_index obj ("type").data with
          | none => none
          | some tyV =>
            match tyV.as_object with
            | none => none
            | some tyObj =>
              match type_from fuel tyObj with
              | none => none
              | some ty =>
                match args_from_list fuel rest with
                | none => none
                | some r => some (⟨nm, ty⟩ :: r)

/-- Model of `schema::args_from` (`schema.rs` lines 81-86): a non-array value yields
the empty vector. -/
def args_from (fuel : Nat) (v : Json) : Option (List SchemaArgument) :=
  match v.as_array with
  | none => some []
  | some xs => args_from_list fuel xs

/-- The element loop of `map_array_object` specialised to `fields_from`'s
closure (`schema.rs` lines 89-94). -/
def fields_from_list (fuel : Nat) : List Json → Option (List SchemaField)
  | [] => some []
  | v :: rest =>
    match v.as_object with
    | none => none
    | some obj =>
      match jmap_index obj ("name").data with
      | none => none
      | some nameV =>
        match nameV.as_str with
        | none => none
        | some nm =>
          match jmap_index obj ("args").data with
          | none => none
          | some argsV =>
            match args_from fuel argsV with
            | none => none
            | some args =>
              match jmap_index obj ("type").data with
              | none => none
              | some tyV =>
                match tyV.as_object with
                | none => none
                | some tyObj =>
                  match type_from fuel tyObj with
                  | none => none
                  | some ty =>
                    match fields_from_list fuel rest with
                    | none => none
                    | some r => some (⟨nm, args, ty⟩ :: r)

/-- Model of `schema::fields_from` (`schema.rs` lines 89-102): collect the field
structs, then insert each under its name (`HashMap::insert`, later entries
overwriting earlier ones). -/
def fields_from (fuel : Nat) (v : Json) : Option (List (List Char × SchemaField)) :=
  match v.as_array with
  | none => some []
  | some xs =>
    match fields_from_list fuel xs with
    | none => none
    | some fs => some (fs.foldl (fun m f => map_insert m f.name f) [])

/-- Model of `NamedTypeKind` selection in `schema::from` (`schema.rs` lines 205-212);
an unknown kind string is a `panic!`. -/
def kind_from (s : List Char) : Option NamedTypeKind :=
  if s = ("OBJECT").data then some .object
  else if s = ("INTERFACE").data then some .interface
  else if s = ("SCALAR").data then some .scalar
  else if s = ("INPUT_OBJECT").data then some .inputObject
  else if s = ("ENUM").data then some .enum
  else none

/-- The `for value in types` loop of `schema::from`
(`schema.rs` lines 200-220). -/
def build_types (fuel : Nat) : List Json → List (List Char × NamedType) →
    Option (List (List Char × NamedType))
  | [], acc => some acc
  | v :: rest, acc =>
    match v.as_object with
    | none => none
    | some ot =>
      match jmap_index ot ("name").data with
      | none => none
      | some nameV =>
        match nameV.as_str with
        | none => none
        | some nm =>
          match jmap_index ot ("kind").data with
          | none => none
          | some kindV =>
            match kindV.as_str with
            | none => none
            | some kindStr =>
              match kind_from kindStr with
              | none => none
              | some kind =>
                match jmap_index ot ("fields").data with
                | none => none
                | some fieldsV =>
                  match fields_from fuel fieldsV with
                  | none => none
                  | some fields =>
                    build_types fuel rest (map_insert acc nm ⟨nm, kind, fields⟩)

/-- Model of `schema::from` (`schema.rs` lines 186-227) on the already-parsed
top-level JSON object.  `json_schema_resp["data"]` is a `serde_json::Map`
index, which PANICS when the key `"data"` is absent; only when the key
exists but its value is not an object does the `None` arm fall back to the
whole top-level map.  The per-type fuel `types_fuel` bounds only the
`ofType` nesting depth of `type_from`. -/
def schema_from (types_fuel : Nat) (root : List (List Char × Json)) : Option Schema :=
  match jmap_index root ("data").data with
  | none => none
  | some dataV =>
    let m := match dataV.as_object with
      | some d => d
      | none => root
    match jmap_index m ("__schema").data with
    | none => none
    | some schemaV =>
      match schemaV.as_object with
      | none => none
      | some js =>
        match jmap_index js ("queryType").data with
        | none => none
        | some qtV =>
          match qtV.as_object with
          | none => none
          | some qtObj =>
            match jmap_index js ("mutationType").data with
            | none => none
            | some mtV =>
              match mtV.as_object with
              | none => none
              | some mtObj =>
                match jmap_index js ("types").data with
                | none => none
                | some tysV =>
                  match tysV.as_array with
                  | none => none
                  | some tys =>
                    match build_types types_fuel tys [] with
                    | none => none
                    | some types_result =>
                      match jmap_index qtObj ("name").data with
                      | none => none
                      | some qnV =>
                        match qnV.as_str with
                        | none => none
                        | some qn =>
                          match jmap_index mtObj ("name").data with
                          | none => none
                          | some mnV =>
                            match mnV.as_str with
                            | none => none
                            | some mn =>
                              some ⟨mn, qn, types_result⟩

/-- A minimal well-formed `__schema` introspection object. -/
def good_schema_json : Json :=
  .jobj
    [ (("queryType").data, .jobj [(("name").data, .jstr (("Query").data))])
    , (("mutationType").data, .jobj [(("name").data, .jstr (("Mutation").data))])
    , (("types").data, .jarr []) ]

/-- Claim C9: `schema::from` does NOT accept both input shapes.  With the
`__schema` object at the top level (no `data` envelope) the map indexing
`json_schema_resp["data"]` panics (`none`), even though the `None => whole
map` fallback arm shows the top-level shape was intended to work; the same
`__schema` object nested under `data` builds the expected `Schema`. -/
theorem c9_top_level_schema_panics :
    schema_from 9 [(("__schema").data, good_schema_json)] = none
    ∧ schema_from 9 [(("data").data, .jobj [(("__schema").data, good_schema_json)])]
        = some ⟨("Mutation").data, ("Query").data, []⟩ :=
  ⟨rfl, rfl⟩

/-! ## Code generator (`src/codegen.rs`)

Each emitter is modelled as a pure function returning the text DELTA it
appends to the builder's `src` buffer (`Option`: `none` is a panic).  The
indentation counter is threaded as a read-only parameter: in the source
every `opening_brace` (indent + 1) is matched by a `closing_brace`
(indent - 1) inside the same function body, so a callee always returns
with the caller's indent restored.  The unused `fragments_on` map of
`Codegen` (initialized empty, never read) is omitted.  `ord` models the
iteration order of the one `HashSet` the generator enumerates
(`gen_dependent_fragments`): Rust's `RandomState` makes that order an
unspecified, seed-dependent enumeration of the set's elements.  Recursive
walks over the `PField` tree carry explicit fuel, decremented on every
call; entry points pass `pfields_size fields + 1`, which exceeds the depth of
any call chain, so the fuel fallbacks are unreachable. -/

structure GenCtx where
  sch : Schema
  ord : List (List Char) → List (List Char)

mutual

/-- Node count of a selection tree, used only to pre-compute fuel bounds
for the recursive walks below. -/
def pfield_size : PField → Nat
  | .plainField _ _ subf => 1 + pfields_size subf
  | .inlineFragment _ subf => 1 + pfields_size subf
  | .fragment _ => 1

def pfields_size : List PField → Nat
  | [] => 1
  | f :: rest => 1 + pfield_size f + pfields_size rest

end

/-- Model of `Codegen::swift_name` (`codegen.rs` lines 50-53): first character
uppercased (Rust panics on an empty string; never called on one here). -/
def swift_name (s : List Char) : List Char :=
  match s with
  | [] => []
  | c :: rest => c.toUpper :: rest

/-- Model of `Codegen::newline` (`codegen.rs` lines 43-48): a newline plus four
spaces per indent level. -/
def nl_str (ind : Nat) : List Char :=
  '\n' :: List.replicate (4 * ind) ' '

/-- Model of `Codegen::opening_brace` (`codegen.rs` lines 32-35): appends `" {"` and
bumps the indent (reflected by callers passing `ind + 1` afterwards). -/
def open_brace : List Char :=
  (" \x7b").data

/-- Model of `Codegen::closing_brace` (`codegen.rs` lines 37-41): unindent, newline
at the decremented level, then `"}"`; `ind` is the decremented level. -/
def close_brace (ind : Nat) : List Char :=
  nl_str ind ++ ("\x7d").data

/-- Model of `Codegen::sole_fragment` (`codegen.rs` lines 91-96). -/
def sole_fragment (fields : List PField) : Option (List Char) :=
  match fields with
  | [PField.fragment frag] => some frag
  | _ => none

/-- Model of `Codegen::has_only_fragments` (`codegen.rs` lines 98-103). -/
def has_only_fragments (fields : List PField) : Bool :=
  fields.all fun f =>
    match f with
    | .plainField _ _ _ => false
    | _ => true

/-- Model of `TypeCase` (`codegen.rs` lines 16-21). -/
inductive TypeCase where
  | soleFragment (name : List Char)
  | interfaceOnlyFragments
  | interface
  | regular

/-- Model of `Codegen::anaylze` (sic, `codegen.rs` lines 105-114). -/
def anaylze (named : NamedType) (fields : List PField) : TypeCase :=
  match sole_fragment fields with
  | some frag => .soleFragment frag
  | none =>
    if named.kind = .interface then
      if has_only_fragments fields then .interfaceOnlyFragments else .interface
    else .regular

/-- Model of `Codegen::should_gen_nested_types` (`codegen.rs` lines 116-118). -/
def should_gen_nested_types (fields : List PField) : Bool :=
  fields.length > 0 && (sole_fragment fields).isNone

/-- Model of `Codegen::has_id_field` (`codegen.rs` lines 257-266). -/
def has_id_field (fields : List PField) : Bool :=
  fields.any fun f =>
    match f with
    | .plainField name _ _ => name = ("id").data
    | _ => false

mutual

/-- Model of `Codegen::write_type_non_nullable` (`codegen.rs` lines 55-78): `none`
models the `panic!` on a nested `NonNull` and the `unwrap` on a missing
schema type. -/
def write_type_non_nullable (ctx : GenCtx) (of_type : Ty) (fields : List PField)
    (nest_type : List Char) : Option (List Char) :=
  match of_type with
  | .nonNull _ => none
  | .string => some (("String").data)
  | .int => some (("Int").data)
  | .float => some (("Float").data)
  | .bool => some (("Bool").data)
  | .input name =>
    match ctx.sch.get name with
    | none => none
    | some nt =>
      if nt.kind = .inputObject ∨ nt.kind = .scalar then some name
      else
        match sole_fragment fields with
        | some frag => some (swift_name frag)
        | none => some nest_type
  | .array elem =>
    match write_type ctx elem fields nest_type with
    | none => none
    | some inner => some (("[").data ++ inner ++ ("]").data)
termination_by (sizeOf of_type, 0)

/-- Model of `Codegen::write_type` (`codegen.rs` lines 80-88). -/
def write_type (ctx : GenCtx) (of_type : Ty) (fields : List PField)
    (nest_type : List Char) : Option (List Char) :=
  match of_type with
  | .nonNull inner => write_type_non_nullable ctx inner fields nest_type
  | t =>
    match write_type_non_nullable ctx t fields nest_type with
    | none => none
    | some s => some (s ++ ("?").data)
termination_by (sizeOf of_type, 1)

end

/-- Model of `Codegen::gen_type_def` (`codegen.rs` lines 246-255). -/
def gen_type_def (kind : List Char) (name : List Char) (is_identifiable : Bool) :
    List Char :=
  kind ++ (" ").data ++ swift_name name ++ (" : Decodable").data
    ++ (if is_identifiable then (", Identifiable").data else [])
    ++ open_brace

/-- The `CodingKeys` member loop of `gen_custom_interface_decoding`
(`codegen.rs` lines 137-142). -/
def coding_keys_part : List PField → List Char
  | [] => []
  | .plainField nm _ _ :: rest => (", ").data ++ nm ++ coding_keys_part rest
  | _ :: rest => coding_keys_part rest

/-- The per-field decode-statement loop of `gen_custom_interface_decoding`
(`codegen.rs` lines 151-164); the `fields[name]` map indexing panics when
the selection names a field absent from the schema type. -/
def decode_lines (ctx : GenCtx) (object_type : NamedType) (ind : Nat) :
    List PField → Option (List Char)
  | [] => some []
  | .plainField nm _ subf :: rest =>
    match map_get object_type.fields nm with
    | none => none
    | some sf =>
      match write_type ctx sf.of_type subf nm with
      | none => none
      | some ty =>
        match decode_lines ctx object_type ind rest with
        | none => none
        | some r =>
          some (nl_str ind ++ ("self.").data ++ nm
            ++ (" = try container.decode(").data ++ ty
            ++ (".self, forKey: .").data ++ nm ++ (")").data ++ r)
  | _ :: rest => decode_lines ctx object_type ind rest

/-- Model of `Codegen::gen_custom_interface_decoding` (`codegen.rs` lines 130-168). -/
def gen_custom_interface_decoding (ctx : GenCtx) (object_type : NamedType)
    (fields : List PField) (ind : Nat) : Option (List Char) :=
  match decode_lines ctx object_type (ind + 1) fields with
  | none => none
  | some dl =>
    some (nl_str ind ++ ("enum CodingKeys : String, CodingKey").data ++ open_brace
      ++ nl_str (ind + 1) ++ ("case __typename").data ++ coding_keys_part fields
      ++ close_brace ind ++ nl_str ind
      ++ ("init(from decoder: Decoder) throws").data ++ open_brace
      ++ nl_str (ind + 1)
      ++ ("let container = try decoder.container(keyedBy: CodingKeys.self)").data
      ++ dl
      ++ nl_str (ind + 1) ++ ("self.kind = try Types(from: decoder)").data
      ++ close_brace ind)

/-- The case-collecting loop of `gen_enum_for_possible_types`
(`codegen.rs` lines 176-196): returns the emitted `case As...` text and the
`cases` vector of `(branch name, swift type name)` pairs; plain fields are
skipped by the `continue` arm. -/
def enum_cases (ctx : GenCtx) (ind : Nat) :
    List PField → Option (List Char × List (List Char × List Char))
  | [] => some ([], [])
  | f :: rest =>
    match f with
    | .plainField _ _ _ => enum_cases ctx ind rest
    | .fragment nm =>
      match enum_cases ctx ind rest with
      | none => none
      | some (txt, cs) =>
        some (nl_str ind ++ ("case As").data ++ nm ++ ("(").data
            ++ swift_name nm ++ (")").data ++ txt,
          (nm, swift_name nm) :: cs)
    | .inlineFragment onTy subf =>
      match ctx.sch.get_named onTy with
      | none => none
      | some nt =>
        let pair :=
          match sole_fragment subf with
          | some fr => (nt.name, fr)
          | none => (nt.name, nt.name)
        match enum_cases ctx ind rest with
        | none => none
        | some (txt, cs) =>
          some (nl_str ind ++ ("case As").data ++ pair.1 ++ ("(").data
              ++ swift_name pair.2 ++ (")").data ++ txt,
            (pair.1, swift_name pair.2) :: cs)

/-- The identity-accessor case loop (`codegen.rs` lines 206-211). -/
def id_cases (ind : Nat) : List (List Char × List Char) → List Char
  | [] => []
  | (nm, _) :: rest =>
    nl_str ind ++ ("case let .As").data ++ nm
      ++ ("(value) : return value.id").data ++ id_cases ind rest

/-- The decoder switch-case loop (`codegen.rs` lines 225-234). -/
def decode_cases (ind : Nat) : List (List Char × List Char) → List Char
  | [] => []
  | (nm, ty) :: rest =>
    nl_str ind ++ ("case \"").data ++ nm ++ ("\" : self = .As").data ++ nm
      ++ ("(try ").data ++ ty ++ ("(from: decoder))").data ++ decode_cases ind rest

/-- Model of `Codegen::gen_enum_for_possible_types` (`codegen.rs` lines 171-244). -/
def gen_enum_for_possible_types (ctx : GenCtx) (object_type : NamedType)
    (name : List Char) (fields : List PField) (ind : Nat) : Option (List Char) :=
  let is_identifiable := (map_get object_type.fields ("id").data).isSome
  match enum_cases ctx (ind + 1) fields with
  | none => none
  | some (casesTxt, cases) =>
    let idPart :=
      if is_identifiable then
        nl_str (ind + 1) ++ ("var id : Int ").data ++ open_brace
          ++ nl_str (ind + 2) ++ ("switch self").data ++ open_brace
          ++ id_cases (ind + 3) cases
          ++ close_brace (ind + 2) ++ close_brace (ind + 1)
      else []
    some (nl_str ind ++ gen_type_def (("enum").data) name is_identifiable
      ++ casesTxt
      ++ idPart
      ++ nl_str (ind + 1) ++ ("init(from decoder: Decoder) throws").data ++ open_brace
      ++ nl_str (ind + 2)
      ++ ("let container = try decoder.container(keyedBy: TypenameKeys.self)").data
      ++ nl_str (ind + 2)
      ++ ("switch try container.decode(String.self, forKey: .__typename)").data
      ++ open_brace
      ++ decode_cases (ind + 3) cases
      ++ nl_str (ind + 3) ++ ("default: throw UnknownTypename()").data
      ++ close_brace (ind + 2) ++ close_brace (ind + 1)
      ++ close_brace ind ++ nl_str ind)

/-- The member loop of `gen_fields` (`codegen.rs` lines 322-346).  A plain
field gets a preceding newline; a fragment member does NOT (faithful to the
source, lines 337-343), and is skipped entirely for interfaces. -/
def gen_fields_go (ctx : GenCtx) (object_type : NamedType) (is_interface : Bool)
    (ind : Nat) : List PField → Option (List Char)
  | [] => some []
  | .plainField nm _ subf :: rest =>
    match map_get object_type.fields nm with
    | none => none
    | some sf =>
      match write_type ctx sf.of_type subf (swift_name nm) with
      | none => none
      | some ty =>
        match gen_fields_go ctx object_type is_interface ind rest with
        | none => none
        | some r =>
          some (nl_str ind ++ ("var ").data ++ nm ++ (" : ").data ++ ty ++ r)
  | .inlineFragment _ _ :: rest => gen_fields_go ctx object_type is_interface ind rest
  | .fragment fr :: rest =>
    match gen_fields_go ctx object_type is_interface ind rest with
    | none => none
    | some r =>
      if is_interface then some r
      else some (("var ").data ++ fr ++ (" : ").data ++ swift_name fr ++ r)

/-- Model of `Codegen::gen_fields` (`codegen.rs` lines 319-352). -/
def gen_fields (ctx : GenCtx) (object_type : NamedType) (fields : List PField)
    (ind : Nat) : Option (List Char) :=
  let is_interface := object_type.kind = .interface
  match gen_fields_go ctx object_type is_interface ind fields with
  | none => none
  | some body =>
    some (body ++ if is_interface then nl_str ind ++ ("var kind : Types").data else [])

/-- Model of `Codegen::gen_args` (`codegen.rs` lines 354-362): each argument is
`var name : type` followed by a newline. -/
def gen_args_emit (ctx : GenCtx) (ind : Nat) : List ArgDef → Option (List Char)
  | [] => some []
  | a :: rest =>
    match write_type ctx a.kind [] [] with
    | none => none
    | some ty =>
      match gen_args_emit ctx ind rest with
      | none => none
      | some r =>
        some (("var ").data ++ a.name ++ (" : ").data ++ ty ++ nl_str ind ++ r)

/-- Model of `Codegen::gen_ql_value` (`codegen.rs` lines 364-378).  Note the trailing
space in BOTH the `false` branch (`"false "`) and the integer branch
(`format!("⦃⦄ ", i)`). -/
def gen_ql_value (v : Val) : List Char :=
  match v with
  | .bool b => if b then ("true").data else ("false ").data
  | .string s => ("\"").data ++ s ++ ("\"").data
  | .int i => (toString i).data ++ (" ").data
  | .var name => ("$").data ++ name

/-- Model of `Codegen::gen_ql_type` (`codegen.rs` lines 380-397). -/
def gen_ql_type : Ty → List Char
  | .string => ("String").data
  | .float => ("Float").data
  | .bool => ("Bool").data
  | .int => ("Int").data
  | .nonNull elem => gen_ql_type elem ++ ("!").data
  | .array elem => ("[").data ++ gen_ql_type elem ++ ("]").data
  | .input input => input

/-- Model of `Codegen::comma_seperated` (sic, `codegen.rs` lines 399-406). -/
def comma_sep (xs : List (List Char)) : List Char :=
  List.intercalate ((", ").data) xs

mutual

/-- Model of `Codegen::gen_ql_fields` (`codegen.rs` lines 408-449): reprints a braced
selection; when the governing type's kind is `Interface` a synthetic
`__typename` selection is injected right after the opening brace, before
any of the selection's own fields. -/
def gen_ql_fields (fuel : Nat) (ctx : GenCtx) (object_type : NamedType)
    (fields : List PField) (ind : Nat) : Option (List Char) :=
  match fuel with
  | 0 => none
  | fuel + 1 =>
    if fields.length = 0 then some []
    else
      match gen_ql_field_list fuel ctx object_type fields (ind + 1) with
      | none => none
      | some body =>
        some (open_brace
          ++ (if object_type.kind = .interface then
                nl_str (ind + 1) ++ ("__typename").data
              else [])
          ++ body ++ close_brace ind)

/-- The `for field in fields` loop of `gen_ql_fields`
(`codegen.rs` lines 419-447): a newline before each member, then the
member's concrete syntax. -/
def gen_ql_field_list (fuel : Nat) (ctx : GenCtx) (object_type : NamedType)
    (fields : List PField) (ind : Nat) : Option (List Char) :=
  match fuel with
  | 0 => none
  | fuel + 1 =>
    match fields with
    | [] => some []
    | .plainField nm args subf :: rest =>
      let argsPart :=
        if args.length > 0 then
          ("(").data
            ++ comma_sep (args.map fun a => a.name ++ (" : ").data ++ gen_ql_value a.value)
            ++ (")").data
        else []
      if subf.length > 0 then
        match ctx.sch.get_type_of_field object_type nm with
        | none => none
        | some nt =>
          match gen_ql_fields fuel ctx nt subf ind with
          | none => none
          | some sub =>
            match gen_ql_field_list fuel ctx object_type rest ind with
            | none => none
            | some tail => some (nl_str ind ++ nm ++ argsPart ++ sub ++ tail)
      else
        match gen_ql_field_list fuel ctx object_type rest ind with
        | none => none
        | some tail => some (nl_str ind ++ nm ++ argsPart ++ tail)
    | .fragment frag :: rest =>
      match gen_ql_field_list fuel ctx object_type rest ind with
      | none => none
      | some tail => some (nl_str ind ++ ("...").data ++ frag ++ tail)
    | .inlineFragment onTy subf :: rest =>
      match ctx.sch.get_named onTy with
      | none => none
      | some nt =>
        match gen_ql_fields fuel ctx nt subf ind with
        | none => none
        | some sub =>
          match gen_ql_field_list fuel ctx object_type rest ind with
          | none => none
          | some tail =>
            some (nl_str ind ++ ("... on ").data ++ gen_ql_type onTy ++ sub ++ tail)

end

/-- Model of `HashSet::insert` on the dependent-fragment set: only membership is
affected; the position chosen here (append) is irrelevant because the
enumeration order is supplied separately by `GenCtx.ord`. -/
def set_insert (s : List (List Char)) (x : List Char) : List (List Char) :=
  if s.contains x then s else s ++ [x]

/-- Model of `Codegen::find_fragments` (`codegen.rs` lines 451-459): collect into the
set every fragment-spread name, descending through nested plain-field and
inline-fragment selections. -/
def find_fragments (fuel : Nat) (acc : List (List Char)) :
    List PField → List (List Char)
  | fields =>
    match fuel with
    | 0 => acc
    | fuel + 1 =>
      match fields with
      | [] => acc
      | .plainField _ _ subf :: rest =>
        find_fragments fuel (find_fragments fuel acc subf) rest
      | .inlineFragment _ subf :: rest =>
        find_fragments fuel (find_fragments fuel acc subf) rest
      | .fragment nm :: rest => find_fragments fuel (set_insert acc nm) rest

/-- Model of `Codegen::gen_dependent_fragments` (`codegen.rs` lines 461-475): the
collected `HashSet` is ENUMERATED (`fragments.iter().enumerate()`) in the
hash-seed-dependent order modelled by `ctx.ord`, and rendered as a
bracketed, comma-separated list of quoted names. -/
def gen_dependent_fragments (ctx : GenCtx) (fields : List PField) : List Char :=
  let frags := ctx.ord (find_fragments (pfields_size fields + 1) [] fields)
  ("[").data
    ++ List.intercalate ((",").data) (frags.map fun f => ("\"").data ++ f ++ ("\"").data)
    ++ ("]").data

/-- Model of `Codegen::gen_ql_args` (`codegen.rs` lines 477-488). -/
def gen_ql_args (args : List ArgDef) : List Char :=
  if args.length > 0 then
    ("(").data
      ++ comma_sep (args.map fun a => ("$").data ++ a.name ++ (" : ").data ++ gen_ql_type a.kind)
      ++ (")").data
  else []

/-- Model of `Codegen::gen_ql` (`codegen.rs` lines 490-507). -/
def gen_ql (ctx : GenCtx) (kind : List Char) (base : NamedType) (name : List Char)
    (args : List ArgDef) (fields : List PField) (ind : Nat) : Option (List Char) :=
  match gen_ql_fields (pfields_size fields + 1) ctx base fields ind with
  | none => none
  | some qf =>
    some (("static let fragments : [String] = ").data
      ++ gen_dependent_fragments ctx fields
      ++ nl_str ind ++ ("static let graphql = \"\"\"").data
      ++ nl_str ind ++ kind ++ (" ").data ++ name
      ++ gen_ql_args args ++ qf
      ++ nl_str ind ++ ("\"\"\"").data ++ nl_str ind)

mutual

/-- Model of `Codegen::gen_type_for` (`codegen.rs` lines 290-317): the four-way
classification.  Returns the appended text and the Rust return value: the
referenced fragment's name in the `SoleFragment` case (with NOTHING
appended), the `name` parameter otherwise. -/
def gen_type_for (fuel : Nat) (ctx : GenCtx) (object_type : NamedType)
    (name : List Char) (fields : List PField) (ind : Nat) :
    Option (List Char × List Char) :=
  match fuel with
  | 0 => none
  | fuel + 1 =>
    match anaylze object_type fields with
    | .soleFragment frag => some ([], frag)
    | .interfaceOnlyFragments =>
      match gen_enum_for_possible_types ctx object_type name fields ind with
      | none => none
      | some e => some (nl_str ind ++ e, name)
    | .interface =>
      match gen_enum_for_possible_types ctx object_type (("Types").data) fields (ind + 1) with
      | none => none
      | some e =>
        match gen_type_for_fields fuel ctx object_type true fields (ind + 1) with
        | none => none
        | some tf =>
          match gen_fields ctx object_type fields (ind + 1) with
          | none => none
          | some gf =>
            match gen_custom_interface_decoding ctx object_type fields (ind + 1) with
            | none => none
            | some dec =>
              some (nl_str ind
                ++ gen_type_def (("struct").data) name (has_id_field fields)
                ++ e ++ tf ++ gf ++ dec ++ close_brace ind, name)
    | .regular =>
      match gen_type_for_fields fuel ctx object_type false fields (ind + 1) with
      | none => none
      | some tf =>
        match gen_fields ctx object_type fields (ind + 1) with
        | none => none
        | some gf =>
          some (nl_str ind
            ++ gen_type_def (("struct").data) name (has_id_field fields)
            ++ tf ++ gf ++ close_brace ind, name)

/-- Model of `Codegen::gen_type_for_fields` (`codegen.rs` lines 269-288).  For an
interface, the first inline fragment RETURNS from the whole loop (source
line 280), skipping all remaining members. -/
def gen_type_for_fields (fuel : Nat) (ctx : GenCtx) (object_type : NamedType)
    (is_interface : Bool) (fields : List PField) (ind : Nat) : Option (List Char) :=
  match fuel with
  | 0 => none
  | fuel + 1 =>
    match fields with
    | [] => some []
    | .plainField nm _ subf :: rest =>
      if should_gen_nested_types subf then
        match ctx.sch.get_type_of_field object_type nm with
        | none => none
        | some named =>
          match gen_type_for fuel ctx named nm subf ind with
          | none => none
          | some p =>
            match gen_type_for_fields fuel ctx object_type is_interface rest ind with
            | none => none
            | some r => some (p.1 ++ r)
      else gen_type_for_fields fuel ctx object_type is_interface rest ind
    | .inlineFragment onTy subf :: rest =>
      if is_interface then some []
      else
        match ctx.sch.get_named onTy with
        | none => none
        | some nt =>
          match gen_type_for fuel ctx nt nt.name subf ind with
          | none => none
          | some p =>
            match gen_type_for_fields fuel ctx object_type is_interface rest ind with
            | none => none
            | some r => some (p.1 ++ r)
    | .fragment _ :: rest => gen_type_for_fields fuel ctx object_type is_interface rest ind

end

/-- Model of `Codegen::gen_api_for` (`codegen.rs` lines 509-524).  Note that the
name returned by `gen_type_for` is DISCARDED (line 522): only the appended
text reaches the output. -/
def gen_api_for (ctx : GenCtx) (kind : List Char) (base : NamedType)
    (name : List Char) (args : List ArgDef) (fields : List PField) (ind : Nat) :
    Option (List Char) :=
  match gen_ql ctx kind base name args fields (ind + 1) with
  | none => none
  | some ql =>
    match gen_args_emit ctx (ind + 1) args with
    | none => none
    | some ga =>
      match gen_type_for (pfields_size fields + 1) ctx base (("Data").data) fields (ind + 1) with
      | none => none
      | some dt =>
        some (nl_str ind ++ nl_str ind
          ++ ("struct ").data ++ swift_name name ++ swift_name kind
          ++ (" : Encodable, GraphQL").data ++ swift_name kind
          ++ open_brace
          ++ nl_str (ind + 1) ++ ql
          ++ nl_str (ind + 1) ++ ga
          ++ dt.1
          ++ close_brace ind)

/-- The query loop of `Codegen::gen_queries` (`codegen.rs` lines 529-531). -/
def gen_queries_go (ctx : GenCtx) (root : NamedType) : List QueryDef → Option (List Char)
  | [] => some []
  | q :: rest =>
    match gen_api_for ctx (("query").data) root q.name q.args q.fields 0 with
    | none => none
    | some a =>
      match gen_queries_go ctx root rest with
      | none => none
      | some b => some (a ++ b)

/-- Model of `Codegen::gen_queries` (`codegen.rs` lines 526-532): the query root is
`unwrap`ped before the loop. -/
def gen_queries (ctx : GenCtx) (qs : List QueryDef) : Option (List Char) :=
  match ctx.sch.query_root with
  | none => none
  | some root => gen_queries_go ctx root qs

/-- The mutation loop of `Codegen::gen_mutations` (`codegen.rs` lines 537-539). -/
def gen_mutations_go (ctx : GenCtx) (root : NamedType) :
    List MutationDef → Option (List Char)
  | [] => some []
  | q :: rest =>
    match gen_api_for ctx (("mutation").data) root q.name q.args q.fields 0 with
    | none => none
    | some a =>
      match gen_mutations_go ctx root rest with
      | none => none
      | some b => some (a ++ b)

/-- Model of `Codegen::gen_mutations` (`codegen.rs` lines 534-540): the mutation root
is `unwrap`ped unconditionally, even for an empty mutation list. -/
def gen_mutations (ctx : GenCtx) (ms : List MutationDef) : Option (List Char) :=
  match ctx.sch.mutation_root with
  | none => none
  | some root => gen_mutations_go ctx root ms

/-- Model of `Codegen::gen_fragments` (`codegen.rs` lines 542-578): per fragment, the
generated type (whose returned name is DISCARDED, line 554) followed by the
registration function. -/
def gen_fragments_go (ctx : GenCtx) : List FragmentDef → Option (List Char)
  | [] => some []
  | fr :: rest =>
    match ctx.sch.get_named fr.onTy with
    | none => none
    | some nt =>
      match gen_type_for (pfields_size fr.fields + 1) ctx nt fr.name fr.fields 0 with
      | none => none
      | some dt =>
        match gen_ql_fields (pfields_size fr.fields + 1) ctx nt fr.fields 1 with
        | none => none
        | some qf =>
          match gen_fragments_go ctx rest with
          | none => none
          | some r =>
            some (nl_str 0 ++ nl_str 0 ++ dt.1
              ++ nl_str 0 ++ ("func init").data ++ swift_name fr.name
              ++ ("Fragment(meta: FragmentMeta)").data
              ++ open_brace
              ++ nl_str 1 ++ ("meta.register(name: \"").data ++ fr.name
              ++ ("\", fragments: ").data ++ gen_dependent_fragments ctx fr.fields
              ++ (", graphql: \"\"\"").data
              ++ nl_str 1 ++ ("fragment ").data ++ fr.name ++ (" on ").data ++ nt.name
              ++ gen_ql_args fr.args ++ qf
              ++ nl_str 1 ++ ("\"\"\")").data
              ++ close_brace 0
              ++ r)

/-- Model of `codegen::gen` (`codegen.rs` lines 583-592): fragments, then queries,
then mutations, appended into one buffer starting at indent 0. -/
def gen (ctx : GenCtx) (module : GraphQL) : Option (List Char) :=
  match gen_fragments_go ctx module.fragments with
  | none => none
  | some a =>
    match gen_queries ctx module.queries with
    | none => none
    | some b =>
      match gen_mutations ctx module.mutations with
      | none => none
      | some c => some (a ++ b ++ c)

/-- Claim C8 counterexample: an integer argument value does NOT reprint as
its decimal digits alone — `gen_ql_value` appends a trailing space
(`format!` with `"⦃⦄ "`, codegen.rs line 372), so the trailing-space quirk
is not confined to the `false` branch. -/
theorem c8_counterexample :
    gen_ql_value (.int 42) = ("42 ").data ∧ ("42 ").data ≠ ("42").data :=
  ⟨rfl, by decide⟩

/-- Claim C8 (amended): argument values reprint by kind as: a string in
double quotes, an integer as its decimal digits followed by one trailing
space, a variable as `$name`, `true` as the exact text `true`, and `false`
as `false` followed by one trailing space — the trailing-space quirk covers
both the `false` branch and the integer branch. -/
theorem c8_value_printing :
    (∀ s, gen_ql_value (.string s) = ("\"").data ++ s ++ ("\"").data)
    ∧ (∀ i : Int, gen_ql_value (.int i) = (toString i).data ++ (" ").data)
    ∧ (∀ n, gen_ql_value (.var n) = ("$").data ++ n)
    ∧ gen_ql_value (.bool true) = ("true").data
    ∧ gen_ql_value (.bool false) = ("false ").data :=
  ⟨fun _ => rfl, fun _ => rfl, fun _ => rfl, rfl, rfl⟩

theorem gen_ql_field_list_kind_irrel (k : NamedTypeKind) :
    ∀ (fuel : Nat) (ctx : GenCtx) (ot : NamedType) (fields : List PField) (ind : Nat),
      gen_ql_field_list fuel ctx ot fields ind
        = gen_ql_field_list fuel ctx ⟨ot.name, k, ot.fields⟩ fields ind := by
  intro fuel
  induction fuel with
  | zero => intros; rfl
  | succ fuel ih =>
    intro ctx ot fields ind
    match fields with
    | [] => rfl
    | .plainField nm args subf :: rest =>
      simp only [gen_ql_field_list]
      have hgt : ctx.sch.get_type_of_field (⟨ot.name, k, ot.fields⟩ : NamedType) nm
          = ctx.sch.get_type_of_field ot nm := rfl
      by_cases hs : subf.length > 0
      · rw [if_pos hs, if_pos hs, hgt, ih ctx ot rest ind]
      · rw [if_neg hs, if_neg hs, ih ctx ot rest ind]
    | .fragment frag :: rest =>
      simp only [gen_ql_field_list]
      rw [ih ctx ot rest ind]
    | .inlineFragment onTy subf :: rest =>
      simp only [gen_ql_field_list]
      rw [ih ctx ot rest ind]

/-- Claim C7: whenever `gen_ql_fields` reprints a nonempty selection whose
governing type has kind `Interface`, the braced reprint opens with a
synthetic `__typename` selection before any of the selection's own members;
for any other governing kind the braced reprint holds exactly the members;
and the member loop itself does not depend on the governing kind at all
(so the injection is the ONLY kind-dependent difference). -/
theorem c7_typename_injection (fuel : Nat) (ctx : GenCtx) (ot : NamedType)
    (fields : List PField) (ind : Nat) :
    (fields ≠ [] → ot.kind = .interface →
      gen_ql_fields (fuel + 1) ctx ot fields ind
        = (gen_ql_field_list fuel ctx ot fields (ind + 1)).map
            (fun body => open_brace ++ nl_str (ind + 1) ++ ("__typename").data
              ++ body ++ close_brace ind))
    ∧ (fields ≠ [] → ot.kind ≠ .interface →
      gen_ql_fields (fuel + 1) ctx ot fields ind
        = (gen_ql_field_list fuel ctx ot fields (ind + 1)).map
            (fun body => open_brace ++ body ++ close_brace ind))
    ∧ (∀ k, gen_ql_field_list fuel ctx ot fields ind
        = gen_ql_field_list fuel ctx ⟨ot.name, k, ot.fields⟩ fields ind) := by
  refine ⟨?_, ?_, fun k => gen_ql_field_list_kind_irrel k fuel ctx ot fields ind⟩
  · intro h hk
    have hlen : ¬ (fields.length = 0) := by
      cases fields with
      | nil => exact absurd rfl h
      | cons a b => simp
    simp only [gen_ql_fields]
    rw [if_neg hlen]
    cases hx : gen_ql_field_list fuel ctx ot fields (ind + 1) with
    | none => rfl
    | some body =>
      rw [if_pos hk]
      rfl
  · intro h hk
    have hlen : ¬ (fields.length = 0) := by
      cases fields with
      | nil => exact absurd rfl h
      | cons a b => simp
    simp only [gen_ql_fields]
    rw [if_neg hlen]
    cases hx : gen_ql_field_list fuel ctx ot fields (ind + 1) with
    | none => rfl
    | some body =>
      rw [if_neg hk]
      rfl

def c7_ctx : GenCtx := ⟨⟨("Mutation").data, ("Query").data, []⟩, id⟩

def c7_ot : NamedType := ⟨("Node").data, .interface, []⟩

/-- Witness for C7 at a concrete interface-governed selection. -/
theorem c7_witness :
    gen_ql_fields 5 c7_ctx c7_ot [.fragment ("f").data] 0
      = (gen_ql_field_list 4 c7_ctx c7_ot [.fragment ("f").data] 1).map
          (fun body => open_brace ++ nl_str 1 ++ ("__typename").data
            ++ body ++ close_brace 0) :=
  (c7_typename_injection 4 c7_ctx c7_ot [.fragment ("f").data] 0).1 (by simp) rfl

/-- Search for a contiguous character run (used to check what a generated
text renders). -/
def starts_with_seq : List Char → List Char → Bool
  | _, [] => true
  | [], _ :: _ => false
  | a :: restA, b :: restB => a == b && starts_with_seq restA restB

def contains_seq : List Char → List Char → Bool
  | l, pat =>
    if starts_with_seq l pat then true
    else
      match l with
      | [] => false
      | _ :: rest => contains_seq rest pat

def c4_ctx : GenCtx := ⟨⟨("Mutation").data, ("Query").data, []⟩, id⟩

def c4_base : NamedType := ⟨("Query").data, .object, []⟩

def c4_fields : List PField := [.fragment ("foo").data]

set_option maxRecDepth 4000 in
/-- Claim C4 counterexample: for the sole-fragment selection `{ ...foo }`,
`gen_type_for` does append nothing and return the fragment's name — but the
top-level consumer (`gen_api_for`) DISCARDS that name: the full generated
struct for `query getIt { ...foo }` contains no occurrence of the
capitalized type name `Foo` anywhere, so no top-level consumer renders it.
(The third conjunct pins the collected dependent-fragment set to the
singleton, so the `id` enumeration order used here is the only one.) -/
theorem c4_counterexample :
    gen_type_for 2 c4_ctx c4_base (("Data").data) c4_fields 1 = some ([], ("foo").data)
    ∧ (gen_api_for c4_ctx (("query").data) c4_base (("getIt").data) [] c4_fields 0).map
        (fun out => contains_seq out (("Foo").data)) = some false
    ∧ find_fragments (pfields_size c4_fields + 1) [] c4_fields = [("foo").data] :=
  ⟨rfl, rfl, rfl⟩

/-- Claim C4 (amended): for a selection that is exactly one fragment spread,
`gen_type_for` appends nothing and returns the fragment's (uncapitalized)
name; the nested field-type consumer (`write_type_non_nullable` on a named
object/interface type) renders the capitalized fragment name; but the
top-level call sites discard the returned name and render nothing for the
selection (shown concretely in the counterexample). -/
theorem c4_sole_fragment :
    (∀ (fuel : Nat) (ctx : GenCtx) (ot : NamedType) (name f : List Char) (ind : Nat),
      gen_type_for (fuel + 1) ctx ot name [.fragment f] ind = some ([], f))
    ∧ (∀ (ctx : GenCtx) (tn : List Char) (nt : NamedType) (fields : List PField)
        (nest f : List Char),
        ctx.sch.get tn = some nt → nt.kind ≠ .inputObject → nt.kind ≠ .scalar →
        sole_fragment fields = some f →
        write_type_non_nullable ctx (.input tn) fields nest = some (swift_name f)) := by
  constructor
  · intro fuel ctx ot name f ind
    rfl
  · intro ctx tn nt fields nest f h1 h2 h3 h4
    simp only [write_type_non_nullable, h1]
    rw [if_neg ?_, h4]
    rintro (h | h)
    · exact h2 h
    · exact h3 h

def c4w_ctx : GenCtx :=
  ⟨⟨("Mutation").data, ("Query").data, [(("T").data, ⟨("T").data, .object, []⟩)]⟩, id⟩

/-- Witness for C4 (amended) at concrete inputs. -/
theorem c4_sole_fragment_witness :
    gen_type_for 3 c4w_ctx ⟨("T").data, .object, []⟩ (("Data").data)
        [.fragment ("foo").data] 0 = some ([], ("foo").data)
    ∧ write_type_non_nullable c4w_ctx (.input (("T").data)) [.fragment ("foo").data] []
        = some (("Foo").data) :=
  ⟨(c4_sole_fragment).1 2 c4w_ctx ⟨("T").data, .object, []⟩ (("Data").data)
      (("foo").data) 0,
    (c4_sole_fragment).2 c4w_ctx (("T").data) ⟨("T").data, .object, []⟩
      [.fragment ("foo").data] [] (("foo").data) rfl (by decide) (by decide) rfl⟩

def c1_fields : List PField := [.fragment ("a").data, .fragment ("b").data]

def c1_schema : Schema :=
  ⟨("Mutation").data, ("Query").data,
    [ (("Query").data, ⟨("Query").data, .object, []⟩)
    , (("Mutation").data, ⟨("Mutation").data, .object, []⟩) ]⟩

def ord_ab : List (List Char) → List (List Char) := fun _ => [("a").data, ("b").data]

def ord_ba : List (List Char) → List (List Char) := fun _ => [("b").data, ("a").data]

def c1_doc : GraphQL := ⟨[], [⟨("q").data, [], c1_fields⟩], []⟩

/-- Predicate: `e` is a possible `HashSet` enumeration of the element set `s`: it lists
each element exactly once, no more and no fewer. -/
def valid_enum (s e : List (List Char)) : Prop :=
  e.Nodup ∧ (∀ x ∈ e, x ∈ s) ∧ (∀ x ∈ s, x ∈ e)

set_option maxRecDepth 20000 in
/-- Claim C1: the dependent-fragment list is rendered in the incidental
`HashSet` iteration order, not order-stably.  For the selection
`{ ...a ...b }` both `["a","b"]` and `["b","a"]` are valid enumerations of
the collected set, and they make `gen_dependent_fragments` — and the whole
generator `gen` on a document containing that query — produce different
output text, so identical inputs need not give byte-identical output across
runs with different hash seeds. -/
theorem c1_hashset_order_dependent :
    valid_enum (find_fragments (pfields_size c1_fields + 1) [] c1_fields)
      (ord_ab (find_fragments (pfields_size c1_fields + 1) [] c1_fields))
    ∧ valid_enum (find_fragments (pfields_size c1_fields + 1) [] c1_fields)
      (ord_ba (find_fragments (pfields_size c1_fields + 1) [] c1_fields))
    ∧ gen_dependent_fragments ⟨c1_schema, ord_ab⟩ c1_fields
        ≠ gen_dependent_fragments ⟨c1_schema, ord_ba⟩ c1_fields
    ∧ gen ⟨c1_schema, ord_ab⟩ c1_doc ≠ gen ⟨c1_schema, ord_ba⟩ c1_doc := by
  refine ⟨?_, ?_, by decide, by decide⟩
  · unfold valid_enum
    decide
  · unfold valid_enum
    decide
